import Mathlib

/-!
Verification of the watch-face generator `parse.py` (repository `wfdl`).

Modelling conventions of this shallow embedding:

* Python floats are idealised as exact numbers: the resolver/evaluator and the
  angular bookkeeping work over `ℚ` (all dial descriptions use small decimal
  literals, where Python float arithmetic is questioned only up to rounding
  noise), and the trigonometric shape geometry works over `ℝ`.
* Fallible Python code is modelled in `Except PyErr`; the constructors of
  `PyErr` name the Python exception classes that the modelled statements can
  raise.
* SVG markup fragments are modelled structurally (an inductive `Svg` recording
  the emitted element and its numeric attributes) because the exact decimal
  rendering of Python floats into strings is not representable here.
* Python values flowing through the description tree (`ast.literal_eval`
  output) are modelled by the inductive `PyLit`: numbers, strings, lists and
  sets (sets keep their iteration order as a list).
-/

namespace Wfdl

/-- Python exception classes raised by the modelled fragment of `parse.py`.
`inexact` flags the one spot where Python would produce an irrational float
(`x ** y` with fractional `y`), which the exact-rational value model cannot
represent; no dial description exercises it. -/
inductive PyErr where
  | typeError
  | keyError
  | valueError
  | indexError
  | attributeError
  | zeroDivisionError
  | parseError
  | nameError (id : String)
  | inexact
  deriving DecidableEq, Repr

/-- Values produced by `ast.literal_eval` on a watch file: numbers, strings,
lists and sets. -/
inductive PyLit where
  | num (q : ℚ)
  | str (s : String)
  | list (l : List PyLit)
  | set (l : List PyLit)

/-- Binary operator node kinds (`ast.Add`, `ast.Sub`, `ast.Mult`, `ast.Div`,
`ast.Pow`, `ast.BitXor`), plus `ast.Mod` as a representative operator kind
that the `operators` table of parse.py does not list. -/
inductive BOp where
  | add | sub | mult | div | pow | bitxor | mod
  deriving DecidableEq, Repr

/-- Unary operator node kinds: `ast.USub` is in the `operators` table,
`ast.UAdd` is not. -/
inductive UOp where
  | usub | uadd
  deriving DecidableEq, Repr

/-- Shallow embedding of the Python AST nodes that `eval_` can receive from
`ast.parse(expr, mode='eval').body`: the three dispatched kinds plus the
rejected kinds named by the spec (calls, names, attribute access, string
literals). -/
inductive PyAst where
  | num (q : ℚ)
  | binop (o : BOp) (l r : PyAst)
  | unaryop (o : UOp) (e : PyAst)
  | call (func : PyAst) (args : List PyAst)
  | name (id : String)
  | attrAccess (value : PyAst) (field : String)
  | strLit (s : String)

/-- Two's-complement XOR on Python ints (`operator.xor`), extended from
`Nat.xor` the way Python's arbitrary-precision ints behave. -/
def intXor : Int → Int → Int
  | .ofNat a, .ofNat b => .ofNat (a ^^^ b)
  | .ofNat a, .negSucc b => .negSucc (a ^^^ b)
  | .negSucc a, .ofNat b => .negSucc (a ^^^ b)
  | .negSucc a, .negSucc b => .ofNat (a ^^^ b)

/-- `operator.truediv`; Python raises ZeroDivisionError on a zero divisor. -/
def pyDiv (a b : ℚ) : Except PyErr ℚ :=
  if b = 0 then .error .zeroDivisionError else .ok (a / b)

/-- `operator.pow`. Exact for integral exponents (negative integral exponents
on a zero base raise ZeroDivisionError in Python); a fractional exponent makes
Python produce an inexact float, flagged as `inexact` here. -/
def pyPow (a b : ℚ) : Except PyErr ℚ :=
  if b.den = 1 then
    if 0 ≤ b.num then .ok (a ^ b.num.toNat)
    else if a = 0 then .error .zeroDivisionError
    else .ok (a ^ b.num)
  else .error .inexact

/-- `operator.xor`: defined on ints only, TypeError on floats. -/
def pyXor (a b : ℚ) : Except PyErr ℚ :=
  if a.den = 1 ∧ b.den = 1 then .ok ((intXor a.num b.num : ℤ) : ℚ)
  else .error .typeError

/-- The `operators` dict of parse.py, as a partial table from operator node
kind to binary function; looking up a kind that the dict does not list raises
KeyError. -/
def operators : BOp → Except PyErr (ℚ → ℚ → Except PyErr ℚ)
  | .add => .ok fun a b => .ok (a + b)
  | .sub => .ok fun a b => .ok (a - b)
  | .mult => .ok fun a b => .ok (a * b)
  | .div => .ok pyDiv
  | .pow => .ok pyPow
  | .bitxor => .ok pyXor
  | .mod => .error .keyError

/-- The unary half of the `operators` dict: only `ast.USub` is listed. -/
def unaryOperators : UOp → Except PyErr (ℚ → Except PyErr ℚ)
  | .usub => .ok fun a => .ok (-a)
  | .uadd => .error .keyError

/-- `eval_` from parse.py: dispatches on `ast.Num`, `ast.BinOp` and
`ast.UnaryOp` and raises TypeError on every other node kind.  For `BinOp` and
`UnaryOp`, Python evaluates `operators[type(node.op)]` before recursing, so a
missing operator raises KeyError before the operands are evaluated. -/
def eval_ : PyAst → Except PyErr ℚ
  | .num q => .ok q
  | .binop o l r => do
      let f ← operators o
      let a ← eval_ l
      let b ← eval_ r
      f a b
  | .unaryop o e => do
      let f ← unaryOperators o
      let v ← eval_ e
      f v
  | _ => .error .typeError

/-- Head constructor is outside the dispatched set {Num, BinOp, UnaryOp}. -/
def forbiddenKind : PyAst → Bool
  | .num _ => false
  | .binop _ _ _ => false
  | .unaryop _ _ => false
  | _ => true

/-- Some node reachable along the Num/BinOp/UnaryOp spine (i.e. a node that
`eval_` would actually visit) is of a non-dispatched kind. -/
def containsForbidden : PyAst → Bool
  | .num _ => false
  | .binop _ l r => containsForbidden l || containsForbidden r
  | .unaryop _ e => containsForbidden e
  | _ => true

/-! Model of `ast.parse(expr, mode='eval')` restricted to the arithmetic
fragment the dial expressions use: integer and decimal literals, parentheses,
the binary operators `+ - * / ** ^` and the unary `+`/`-`.  Python's grammar
parses `^` as `ast.BitXor` and `**` as `ast.Pow`; precedence, low to high, is
`^`, then `+ -`, then `* /`, then unary minus, then `**` (right-associative,
with a unary expression allowed as its right operand).  Any other input is
modelled as a parse failure, standing for SyntaxError. -/

/-- Tokens of the arithmetic fragment. -/
inductive Tok where
  | lit (q : ℚ)
  | plus | minus | star | slash | dstar | caret | lpar | rpar
  deriving DecidableEq, Repr

/-- Numeric value of a digit character. -/
def digitVal (c : Char) : ℕ := c.toNat - 48

/-- Consume a maximal run of digits, accumulating their value. -/
def readDigits : List Char → ℕ → (ℕ × List Char)
  | c :: cs, acc =>
    if c.isDigit then readDigits cs (acc * 10 + digitVal c) else (acc, c :: cs)
  | [], acc => (acc, [])

/-- Consume a maximal run of digits after a decimal point, returning their
value together with how many there were. -/
def readFrac : List Char → ℕ → ℕ → (ℕ × ℕ × List Char)
  | c :: cs, acc, k =>
    if c.isDigit then readFrac cs (acc * 10 + digitVal c) (k + 1)
    else (acc, k, c :: cs)
  | [], acc, k => (acc, k, [])

/-- Fuel-driven tokenizer (the fuel only needs to exceed the input length). -/
def tokenizeF : ℕ → List Char → Option (List Tok)
  | 0, _ => none
  | _ + 1, [] => some []
  | fuel + 1, c :: cs =>
    if c = ' ' then tokenizeF fuel cs
    else if c.isDigit then
      match readDigits (c :: cs) 0 with
      | (n, '.' :: rest2) =>
        match readFrac rest2 0 0 with
        | (f, k, rest3) =>
          (tokenizeF fuel rest3).map
            (fun ts => Tok.lit ((n : ℚ) + (f : ℚ) / ((10 : ℚ) ^ k)) :: ts)
      | (n, rest) => (tokenizeF fuel rest).map (fun ts => Tok.lit (n : ℚ) :: ts)
    else if c = '+' then (tokenizeF fuel cs).map (Tok.plus :: ·)
    else if c = '-' then (tokenizeF fuel cs).map (Tok.minus :: ·)
    else if c = '*' then
      match cs with
      | '*' :: cs2 => (tokenizeF fuel cs2).map (Tok.dstar :: ·)
      | _ => (tokenizeF fuel cs).map (Tok.star :: ·)
    else if c = '/' then (tokenizeF fuel cs).map (Tok.slash :: ·)
    else if c = '^' then (tokenizeF fuel cs).map (Tok.caret :: ·)
    else if c = '(' then (tokenizeF fuel cs).map (Tok.lpar :: ·)
    else if c = ')' then (tokenizeF fuel cs).map (Tok.rpar :: ·)
    else none

mutual

/-- `^` level (lowest precedence, left-associative). -/
def pXor : ℕ → List Tok → Option (PyAst × List Tok)
  | 0, _ => none
  | f + 1, ts =>
    match pAdd f ts with
    | none => none
    | some (e, ts2) => pXorR f e ts2

/-- Left-recursion loop of the `^` level. -/
def pXorR : ℕ → PyAst → List Tok → Option (PyAst × List Tok)
  | 0, _, _ => none
  | f + 1, e, Tok.caret :: ts =>
    match pAdd f ts with
    | none => none
    | some (e2, ts2) => pXorR f (.binop .bitxor e e2) ts2
  | _ + 1, e, ts => some (e, ts)

/-- `+`/`-` level. -/
def pAdd : ℕ → List Tok → Option (PyAst × List Tok)
  | 0, _ => none
  | f + 1, ts =>
    match pMul f ts with
    | none => none
    | some (e, ts2) => pAddR f e ts2

/-- Left-recursion loop of the `+`/`-` level. -/
def pAddR : ℕ → PyAst → List Tok → Option (PyAst × List Tok)
  | 0, _, _ => none
  | f + 1, e, Tok.plus :: ts =>
    match pMul f ts with
    | none => none
    | some (e2, ts2) => pAddR f (.binop .add e e2) ts2
  | f + 1, e, Tok.minus :: ts =>
    match pMul f ts with
    | none => none
    | some (e2, ts2) => pAddR f (.binop .sub e e2) ts2
  | _ + 1, e, ts => some (e, ts)

/-- `*`/`/` level. -/
def pMul : ℕ → List Tok → Option (PyAst × List Tok)
  | 0, _ => none
  | f + 1, ts =>
    match pFactor f ts with
    | none => none
    | some (e, ts2) => pMulR f e ts2

/-- Left-recursion loop of the `*`/`/` level. -/
def pMulR : ℕ → PyAst → List Tok → Option (PyAst × List Tok)
  | 0, _, _ => none
  | f + 1, e, Tok.star :: ts =>
    match pFactor f ts with
    | none => none
    | some (e2, ts2) => pMulR f (.binop .mult e e2) ts2
  | f + 1, e, Tok.slash :: ts =>
    match pFactor f ts with
    | none => none
    | some (e2, ts2) => pMulR f (.binop .div e e2) ts2
  | _ + 1, e, ts => some (e, ts)

/-- Unary `-`/`+` level (Python `u_expr`). -/
def pFactor : ℕ → List Tok → Option (PyAst × List Tok)
  | 0, _ => none
  | f + 1, Tok.minus :: ts =>
    match pFactor f ts with
    | none => none
    | some (e, ts2) => some (.unaryop .usub e, ts2)
  | f + 1, Tok.plus :: ts =>
    match pFactor f ts with
    | none => none
    | some (e, ts2) => some (.unaryop .uadd e, ts2)
  | f + 1, ts => pPower f ts

/-- `**` level (Python `power`: right-associative, unary allowed on the
right). -/
def pPower : ℕ → List Tok → Option (PyAst × List Tok)
  | 0, _ => none
  | f + 1, ts =>
    match pAtom f ts with
    | none => none
    | some (e, Tok.dstar :: ts2) =>
      match pFactor f ts2 with
      | none => none
      | some (e2, ts3) => some (.binop .pow e e2, ts3)
    | some (e, ts2) => some (e, ts2)

/-- Literals and parenthesised expressions. -/
def pAtom : ℕ → List Tok → Option (PyAst × List Tok)
  | 0, _ => none
  | _ + 1, Tok.lit q :: ts => some (.num q, ts)
  | f + 1, Tok.lpar :: ts =>
    match pXor f ts with
    | none => none
    | some (e, Tok.rpar :: ts2) => some (e, ts2)
    | some _ => none
  | _ + 1, _ => none

end

/-- `eval_expr` from parse.py: parse the string and run `eval_` on the
resulting tree.  A parse failure stands for Python's SyntaxError. -/
def eval_expr (s : String) : Except PyErr ℚ :=
  match tokenizeF (s.length + 1) s.data with
  | none => .error .parseError
  | some ts =>
    match pXor (6 * ts.length + 6) ts with
    | some (e, []) => eval_ e
    | _ => .error .parseError

/-! Dictionary substitution (`replace_matched_items` and friends). -/

/-- The Dictionary of a watch file: an insertion-ordered mapping from symbol
name to numeric value (`dict.items()` iterates in insertion order). -/
def Dict := List (String × ℚ)

/-- Python `str()` of a numeric dictionary value.  Watch dictionaries use
integer values, where `str(5) = "5"`; a non-integral float would print in
decimal float notation, which the exact-rational model renders as `num/den`. -/
def pyStr (v : ℚ) : String :=
  if v.den = 1 then toString v.num else toString v

/-- Python `str.replace` on character lists, non-overlapping and left to
right; the fuel argument only needs to cover the input length.  An empty
pattern (which no watch dictionary uses) never matches here, while Python
would interleave the replacement everywhere. -/
def pyReplaceF : ℕ → List Char → List Char → List Char → List Char
  | 0, cs, _, _ => cs
  | f + 1, cs, pat, rep =>
    match cs with
    | [] => []
    | c :: rest =>
      if pat ≠ [] ∧ pat.isPrefixOf cs then
        rep ++ pyReplaceF f (cs.drop pat.length) pat rep
      else c :: pyReplaceF f rest pat rep

/-- Python `str.replace`. -/
def pyReplace (s pat rep : String) : String :=
  String.mk (pyReplaceF s.data.length s.data pat.data rep.data)

/-- The substitution loop of `get_value_of_exp`:
`for key, value in dictionary.items(): exp = exp.replace(key, str(value))`. -/
def substitute (d : Dict) (exp : String) : String :=
  d.foldl (fun e kv => pyReplace e kv.1 (pyStr kv.2)) exp

/-- `re.search('[a-zA-Z]', exp)`: does any ASCII letter remain? -/
def hasAlpha (s : String) : Bool := s.data.any Char.isAlpha

/-- `get_value_of_exp` from parse.py: numbers pass through; strings get every
dictionary key replaced by the value's string form, and the result is either
kept as a string (if a letter remains) or arithmetically evaluated.  A list or
set reaching this function would hit `.replace` on a non-string
(AttributeError); `replace_matched_items` never sends one here. -/
def get_value_of_exp (exp : PyLit) (d : Dict) : Except PyErr PyLit :=
  match exp with
  | .num q => .ok (.num q)
  | .str s =>
    let s2 := substitute d s
    if hasAlpha s2 then .ok (.str s2)
    else (eval_expr s2).map PyLit.num
  | _ => .error .attributeError

/-- A Python comprehension `[f(x) for x in l]` over fallible `f`: the loop
stops at the first raised exception. -/
def pyMap (f : PyLit → Except PyErr α) : List PyLit → Except PyErr (List α)
  | [] => .ok []
  | x :: xs => do
    let y ← f x
    let ys ← pyMap f xs
    .ok (y :: ys)

/-- `replace_in_set` from parse.py. -/
def replace_in_set (l : List PyLit) (d : Dict) : Except PyErr (List PyLit) :=
  pyMap (get_value_of_exp · d) l

/-- `replace_matched_items` from parse.py: recurse through lists, map
`get_value_of_exp` over sets and leaves. -/
def replace_matched_items : List PyLit → Dict → Except PyErr (List PyLit)
  | [], _ => .ok []
  | element :: rest, d => do
    let e2 ←
      match element with
      | .set l => (replace_in_set l d).map PyLit.set
      | .list l => (replace_matched_items l d).map PyLit.list
      | e => get_value_of_exp e d
    let rest2 ← replace_matched_items rest d
    .ok (e2 :: rest2)

/-! Dynamic-typing helpers: the Python statements below operate on values of
unknown runtime type; these helpers surface the TypeError / IndexError /
ValueError that CPython raises when the value has the wrong shape. -/

/-- Use a `PyLit` as a number (arithmetic or comparison on a non-number is a
TypeError). -/
def asNum : PyLit → Except PyErr ℚ
  | .num q => .ok q
  | _ => .error .typeError

/-- Use a `PyLit` as a list (iteration/slicing of a non-sequence is a
TypeError; a string's items are its characters). -/
def asList : PyLit → Except PyErr (List PyLit)
  | .list l => .ok l
  | _ => .error .typeError

/-- `l[i]` on a Python list. -/
def pyIndex (l : List PyLit) (i : ℕ) : Except PyErr PyLit :=
  match l.get? i with
  | some x => .ok x
  | none => .error .indexError

/-- `x[i]` on an arbitrary value: lists index their items, strings their
characters; numbers and sets are not subscriptable. -/
def pySubscript : PyLit → ℕ → Except PyErr PyLit
  | .list l, i => pyIndex l i
  | .str s, i =>
    match s.data.get? i with
    | some c => .ok (.str (String.mk [c]))
    | none => .error .indexError
  | _, _ => .error .typeError

/-- `len(x)`: lists, sets and strings have a length; numbers do not. -/
def pyLen : PyLit → Except PyErr ℕ
  | .list l => .ok l.length
  | .set l => .ok l.length
  | .str s => .ok s.length
  | .num _ => .error .typeError

/-- Tuple-unpack `a, b, ... = x` into exactly `n` names: works on lists, sets
and strings of length `n`, raises ValueError on a length mismatch and
TypeError on a non-iterable. -/
def unpackN (x : PyLit) (n : ℕ) : Except PyErr (List PyLit) :=
  match x with
  | .list l => if l.length = n then .ok l else .error .valueError
  | .set l => if l.length = n then .ok l else .error .valueError
  | .str s =>
    if s.length = n then .ok (s.data.map fun c => .str (String.mk [c]))
    else .error .valueError
  | .num _ => .error .typeError

/-! The Angular Position Expander, Occupancy Tracker and Ring Allocator. -/

/-- The common body of `get_fis` for range specs:
`[i/n for i in range(n) if start <= i/n <= end]`. -/
def get_fis_range (nL sL eL : PyLit) : Except PyErr (List ℚ) := do
  let n ← asNum nL
  let s ← asNum sL
  let e ← asNum eL
  if n.den = 1 then
    if 0 ≤ n.num then
      .ok (((List.range n.num.toNat).filter
              fun i : ℕ => decide (s ≤ (i : ℚ) / n ∧ (i : ℚ) / n ≤ e)).map
            fun i : ℕ => (i : ℚ) / n)
    else .ok []
  else .error .typeError

/-- `get_fis` from parse.py: an explicit set of angles is returned as is, an
integer count `n` expands to `[i / n for i in range(n)]`, and a list is a
range spec `[n, end]` or `[n, start, end, ...]`.  A float count is
`range(float)`, a TypeError.  A string position makes `get_fis` fall through
and return `None`, which the caller then iterates — a TypeError, surfaced
here.  Set members are used as numbers downstream, so they are coerced at
return. -/
def get_fis : PyLit → Except PyErr (List ℚ)
  | .set l => pyMap asNum l
  | .num q =>
    if q.den = 1 then
      if 0 ≤ q.num then .ok ((List.range q.num.toNat).map fun i : ℕ => (i : ℚ) / q)
      else .ok []
    else .error .typeError
  | .list l =>
    match l with
    | [] => .error .indexError
    | [_] => .error .indexError
    | [n, e] => get_fis_range n (PyLit.num 0) e
    | n :: s :: e :: _ => get_fis_range n s e
  | .str _ => .error .typeError

/-- `get_ranges` from parse.py (the constant `1 / 10` is `BORDER_FACTOR`,
inlined because this definition is polymorphic): pad the angular footprint of
a shape centred at `pos` by 10% of its width on each side, splitting at the
0/1 seam.  The occupancy tracker runs it on floats (reals); the claims
instantiate it at `ℚ`. -/
def get_ranges {α : Type} [LinearOrderedField α] (pos width : α) : List (α × α) :=
  let border := width * (1 / 10)
  let start := pos - width / 2 - border
  let stop := pos + width / 2 + border
  if start < 0 then [(start + 1, 1), (0, stop)]
  else if stop > 1 then [(start, 1), (0, stop - 1)]
  else [(start, stop)]

/-- `rng_intersects` from parse.py: does the query interval `rng` meet any
recorded interval, endpoint touching excluded? -/
def rng_intersects {α : Type} [LinearOrder α] (rng : α × α)
    (filled_ranges : List (α × α)) : Bool :=
  filled_ranges.any fun fr =>
    decide ((fr.1 < rng.1 ∧ rng.1 < fr.2) ∨ (fr.1 < rng.2 ∧ rng.2 < fr.2) ∨
      (rng.1 < fr.1 ∧ rng.2 > fr.2))

/-- `compute_angular_width` from parse.py: `asin(width / (100 - offset))`
normalised to fractions of a turn.  `math.asin` raises
`ValueError: math domain error` outside `[-1, 1]`; a zero radius raises
ZeroDivisionError first. -/
noncomputable def compute_angular_width (width offset : ℚ) : Except PyErr ℝ :=
  let r := 100 - offset
  if r = 0 then .error .zeroDivisionError
  else
    let a_sin := width / r
    if a_sin > 1 ∨ a_sin < -1 then .error .valueError
    else .ok (Real.arcsin ((a_sin : ℚ) : ℝ) / (2 * Real.pi))

/-- The loop body of `get_rs` from parse.py. -/
def get_rs_go (r : ℚ) : List ℚ → List ℚ
  | [] => []
  | o :: os => (r - o) :: get_rs_go (r - o) os

/-- `get_rs` from parse.py: extract each ring's offset (`a[0]`), then build
the radii by cumulative subtraction from 100. -/
def get_rs (elements : List PyLit) : Except PyErr (List ℚ) := do
  let offsets ← pyMap (fun a => do
    let l ← asList a
    pyIndex l 0) elements
  let offs ← pyMap asNum offsets
  .ok (get_rs_go 100 offs)

/-! The Shape Renderer: one drawer per shape kind.  Geometry is over `ℝ`
(Python floats doing trigonometry); the emitted markup is modelled as the
structured fragment `Svg` rather than a formatted string. -/

/-- The `Shape` enum of parse.py. -/
inductive Shape where
  | line | rounded_line | two_lines | circle | triangle | number
  deriving DecidableEq, Repr

/-- `Shape[name]` (enum lookup by member name): KeyError when the name is not
a member, and also when the subscript is not a string. -/
def shapeOf : PyLit → Except PyErr Shape
  | .str s =>
    if s = "line" then .ok .line
    else if s = "rounded_line" then .ok .rounded_line
    else if s = "two_lines" then .ok .two_lines
    else if s = "circle" then .ok .circle
    else if s = "triangle" then .ok .triangle
    else if s = "number" then .ok .number
    else .error .keyError
  | _ => .error .keyError

/-- `ObjParams` from parse.py (`namedtuple('ObjParams', ['shape', 'r', 'fi',
'args'])`).  `r` and `fi` are numeric by the time they are packed here; the
argument list keeps its literal form. -/
structure ObjParams where
  shape : Shape
  r : ℚ
  fi : ℚ
  args : PyLit

/-- `GrpRanges` from parse.py (`namedtuple('GrpRanges', ['r', 'ranges'])`):
the per-ring occupancy record. -/
structure GrpRanges where
  r : ℚ
  ranges : List (ℝ × ℝ)

/-- The markup fragments parse.py emits, modelled structurally.  Field order
follows the attribute order of the f-strings in the source. -/
inductive Svg where
  | line (x1 y1 x2 y2 width : ℝ)
  | rect (rx y x ry rot height width : ℝ)
  | circle (cx cy r : ℝ)
  | polygon (x1 y1 x2 y2 x3 y3 : ℝ)
  | text (x y rot size : ℝ) (font : String) (content : String)
  | circularBorder (strokeWidth : PyLit) (r : ℚ)

/-- `rad = prms.fi * 2 * pi - pi / 2`: fractional angle to radians, angle 0 at
12 o'clock. -/
noncomputable def radOf (fi : ℚ) : ℝ := (fi : ℝ) * 2 * Real.pi - Real.pi / 2

/-- Unpack a two-element argument list into two numbers (`height, width =
prms.args` followed by arithmetic on both). -/
def asArgs2 (args : PyLit) : Except PyErr (ℚ × ℚ) := do
  match ← unpackN args 2 with
  | [a, b] => do
    let x ← asNum a
    let y ← asNum b
    .ok (x, y)
  | _ => .error .valueError

/-- Unpack a three-element argument list into three numbers. -/
def asArgs3 (args : PyLit) : Except PyErr (ℚ × ℚ × ℚ) := do
  match ← unpackN args 3 with
  | [a, b, c] => do
    let x ← asNum a
    let y ← asNum b
    let z ← asNum c
    .ok (x, y, z)
  | _ => .error .valueError

/-- `get_line` from parse.py. -/
noncomputable def get_line (prms : ObjParams) :
    Except PyErr (List (ℝ × ℝ) × Svg) := do
  let (height, width) ← asArgs2 prms.args
  let rad := radOf prms.fi
  let x1 := Real.cos rad * (prms.r : ℝ)
  let x2 := Real.cos rad * ((prms.r : ℝ) - (height : ℝ))
  let y1 := Real.sin rad * (prms.r : ℝ)
  let y2 := Real.sin rad * ((prms.r : ℝ) - (height : ℝ))
  let w ← compute_angular_width width (100 - prms.r)
  .ok (get_ranges ((prms.fi : ℚ) : ℝ) w, .line x1 y1 x2 y2 (width : ℝ))

/-- `get_rounded_line` from parse.py. -/
noncomputable def get_rounded_line (prms : ObjParams) :
    Except PyErr (List (ℝ × ℝ) × Svg) := do
  let (height, width) ← asArgs2 prms.args
  let rad := radOf prms.fi
  let rot := (rad - Real.pi / 2) / Real.pi * 180
  let w ← compute_angular_width width (100 - prms.r)
  .ok (get_ranges ((prms.fi : ℚ) : ℝ) w,
    .rect ((width : ℝ) / 2) (prms.r : ℝ) (-((width : ℝ) / 2)) ((width : ℝ) / 2)
      rot (height : ℝ) (width : ℝ))

/-- `get_two_lines` from parse.py.  Its body reads the module-level names `ri`
and `ro`, which are bound nowhere (they survive only inside the commented-out
legacy drawers), so its first statement `x1 = cos(rad) * ri` raises
`NameError: name 'ri' is not defined`; the later misspelling `widht` in the
angular-width expression is unreachable. -/
noncomputable def get_two_lines (prms : ObjParams) :
    Except PyErr (List (ℝ × ℝ) × Svg) := do
  let (_height, _width, _sep) ← asArgs3 prms.args
  let _rad := radOf prms.fi
  .error (.nameError "ri")

/-- `get_circle` from parse.py. -/
noncomputable def get_circle (prms : ObjParams) :
    Except PyErr (List (ℝ × ℝ) × Svg) := do
  let diameter ← asNum (← pySubscript prms.args 0)
  let rad := radOf prms.fi
  let cx := Real.cos rad * ((prms.r : ℝ) - (diameter : ℝ) / 2)
  let cy := Real.sin rad * ((prms.r : ℝ) - (diameter : ℝ) / 2)
  let w ← compute_angular_width diameter (100 - prms.r)
  .ok (get_ranges ((prms.fi : ℚ) : ℝ) w, .circle cx cy ((diameter : ℝ) / 2))

/-- `get_triangle` from parse.py.  Note the apex coordinates reproduce the
source's precedence faithfully: `cos(rad) * prms.r - height`, i.e.
`(cos rad * r) - height`, not `cos rad * (r - height)`. -/
noncomputable def get_triangle (prms : ObjParams) :
    Except PyErr (List (ℝ × ℝ) × Svg) := do
  let (height, width) ← asArgs2 prms.args
  let rad := radOf prms.fi
  let x1 := Real.cos rad * (prms.r : ℝ) - Real.sin rad * (width : ℝ) / 2
  let y1 := Real.sin rad * (prms.r : ℝ) + Real.cos rad * (width : ℝ) / 2
  let x2 := Real.cos rad * (prms.r : ℝ) + Real.sin rad * (width : ℝ) / 2
  let y2 := Real.sin rad * (prms.r : ℝ) - Real.cos rad * (width : ℝ) / 2
  let x3 := Real.cos rad * (prms.r : ℝ) - (height : ℝ)
  let y3 := Real.sin rad * (prms.r : ℝ) - (height : ℝ)
  let w ← compute_angular_width width (100 - prms.r)
  .ok (get_ranges ((prms.fi : ℚ) : ℝ) w, .polygon x1 y1 x2 y2 x3 y3)

/-- `ROMAN` from parse.py: lookup outside 1..12 is a KeyError. -/
def ROMAN (i : ℤ) : Option String :=
  if i = 1 then some "I" else if i = 2 then some "II"
  else if i = 3 then some "III" else if i = 4 then some "IIII"
  else if i = 5 then some "V" else if i = 6 then some "VI"
  else if i = 7 then some "VII" else if i = 8 then some "VIII"
  else if i = 9 then some "IX" else if i = 10 then some "X"
  else if i = 11 then some "XI" else if i = 12 then some "XII"
  else none

/-- Python 3 `round()`: round half to even (banker's rounding). -/
noncomputable def pyRound (x : ℝ) : ℤ :=
  let f := ⌊x⌋
  let d := x - (f : ℝ)
  if d < 1 / 2 then f
  else if 1 / 2 < d then f + 1
  else if Even f then f else f + 1

/-- `deg_to_time` from parse.py. -/
noncomputable def deg_to_time (deg : ℝ) (factor : ℤ) : ℤ :=
  let i := pyRound ((deg + Real.pi / 2) / (2 * Real.pi) * (factor : ℝ))
  if i = 0 then factor else i

/-- `get_hour` from parse.py. -/
noncomputable def get_hour (deg : ℝ) : ℤ := deg_to_time deg 12

/-- `get_minute` from parse.py. -/
noncomputable def get_minute (deg : ℝ) : ℤ := deg_to_time deg 60

/-- `get_num_str` from parse.py: anything other than `'minute'` or `'roman'`
falls into the hour branch. -/
noncomputable def get_num_str (kind : PyLit) (deg : ℝ) : Except PyErr String :=
  match kind with
  | .str s =>
    if s = "minute" then .ok (toString (get_minute deg))
    else if s = "roman" then
      match ROMAN (get_hour deg) with
      | some r => .ok r
      | none => .error .keyError
    else .ok (toString (get_hour deg))
  | _ => .ok (toString (get_hour deg))

/-- `get_num_rotation` from parse.py: any orientation other than
`'horizontal'` and `'rotating'` takes the upright branch. -/
noncomputable def get_num_rotation (orient : PyLit) (deg : ℝ) : ℝ :=
  let upright :=
    (deg + Real.pi / 2 + (if 0 < deg ∧ deg < Real.pi then Real.pi else 0)) /
      Real.pi * 180
  match orient with
  | .str s =>
    if s = "horizontal" then 0
    else if s = "rotating" then (deg + Real.pi / 2) / Real.pi * 180
    else upright
  | _ => upright

/-- `get_number` from parse.py. -/
noncomputable def get_number (prms : ObjParams) :
    Except PyErr (List (ℝ × ℝ) × Svg) := do
  let len ← pyLen prms.args
  let (size, kind, orient, font) ←
    if len = 3 then do
      match ← unpackN prms.args 3 with
      | [s, k, o] => .ok (s, k, o, PyLit.str "")
      | _ => .error .valueError
    else do
      match ← unpackN prms.args 4 with
      | [s, k, o, f] => .ok (s, k, o, f)
      | _ => .error .valueError
  let sizeQ ← asNum size
  let rad := radOf prms.fi
  let x := Real.cos rad * ((prms.r : ℝ) - (sizeQ : ℝ) / 2)
  let y := Real.sin rad * ((prms.r : ℝ) - (sizeQ : ℝ) / 2)
  let i ← get_num_str kind rad
  let rot := get_num_rotation orient rad
  let fontS := match font with | .str f => f | _ => ""
  let w ← compute_angular_width sizeQ (100 - prms.r)
  .ok (get_ranges ((prms.fi : ℚ) : ℝ) w, .text x y rot (sizeQ : ℝ) fontS i)

/-- The `DRAWERS` dispatch table of `get_svg_el`. -/
noncomputable def DRAWERS : Shape → ObjParams → Except PyErr (List (ℝ × ℝ) × Svg)
  | .line => get_line
  | .rounded_line => get_rounded_line
  | .two_lines => get_two_lines
  | .circle => get_circle
  | .number => get_number
  | .triangle => get_triangle

/-! The assembly pipeline: `get_svg` → `get_group` → `get_objects` →
`get_object` → `get_svg_el` → drawer.  The per-ring occupancy list `ranges`
is a mutated Python list; the model threads it explicitly. -/

/-- `get_height` from parse.py: `prms.args[0]` (the later `>` comparison
against a number makes a non-numeric first argument a TypeError). -/
def get_height (prms : ObjParams) : Except PyErr ℚ := do
  asNum (← pySubscript prms.args 0)

/-- `get_max_height` from parse.py: a stub that always reports 100. -/
def get_max_height (_ranges : List GrpRanges) (_prms : ObjParams) : ℚ := 100

/-- `update_height` from parse.py: a stub that returns the arguments
unchanged. -/
def update_height (_shape : Shape) (args : PyLit) (_height : ℚ) : PyLit := args

/-- `range_ocupied` from parse.py: a stub that always reports `False`. -/
def range_ocupied (_ranges : List GrpRanges) (_prms : ObjParams) : Bool := false

/-- `occupied_ranges[-1].ranges.extend(ranges)`: extend the last ring's
occupancy record; an empty list would be an IndexError. -/
def extendLast : List GrpRanges → List (ℝ × ℝ) → Except PyErr (List GrpRanges)
  | [], _ => .error .indexError
  | [g], new => .ok [⟨g.r, g.ranges ++ new⟩]
  | g :: rest, new => (extendLast rest new).map (g :: ·)

/-- `get_svg_el` from parse.py: run the drawer for the shape, record the
returned angular ranges in the current ring's occupancy record, return the
fragment. -/
noncomputable def get_svg_el (prms : ObjParams) (occupied_ranges : List GrpRanges) :
    Except PyErr (Svg × List GrpRanges) := do
  let fn := DRAWERS prms.shape
  let (ranges, svg) ← fn prms
  let occ ← extendLast occupied_ranges ranges
  .ok (svg, occ)

/-- `get_object` from parse.py: the height-clamping hook compares
`args[0]` against the stubbed maximum (calling the no-op `update_height`),
then the stubbed `range_ocupied` decides between `None` and the drawn
element. -/
noncomputable def get_object (ranges : List GrpRanges) (prms : ObjParams) :
    Except PyErr (Option Svg × List GrpRanges) := do
  let height ← get_height prms
  let max_height := get_max_height ranges prms
  let _ := if max_height < height then update_height prms.shape prms.args max_height
           else prms.args
  if range_ocupied ranges prms then .ok (none, ranges)
  else do
    let (svg, occ) ← get_svg_el prms ranges
    .ok (some svg, occ)

/-- `get_objects` from parse.py: draw one object per expanded angle, keeping
the truthy results (`[a for a in out if a]`). -/
noncomputable def get_objects (ranges : List GrpRanges) (fis : List ℚ)
    (shape : Shape) (args : PyLit) (r : ℚ) :
    Except PyErr (List Svg × List GrpRanges) :=
  match fis with
  | [] => .ok ([], ranges)
  | fi :: rest => do
    let (svg?, ranges2) ← get_object ranges ⟨shape, r, fi, args⟩
    let (svgs, ranges3) ← get_objects ranges2 rest shape args r
    match svg? with
    | some svg => .ok (svg :: svgs, ranges3)
    | none => .ok (svgs, ranges3)

/-- `get_circular_border` from parse.py: `element[1][0]` is the stroke width
(formatted as-is into the markup), the radius is `100 - ver_pos`. -/
def get_circular_border (element : PyLit) (ver_pos : ℚ) : Except PyErr Svg := do
  let inner ← pySubscript element 1
  let strokeWidth ← pySubscript inner 0
  .ok (.circularBorder strokeWidth (100 - ver_pos))

/-- The `for element in elements` loop of `get_group`. -/
noncomputable def get_group_go (r : ℚ) :
    List PyLit → List Svg → List GrpRanges →
    Except PyErr (List Svg × List GrpRanges)
  | [], out, ranges => .ok (out, ranges)
  | element :: rest, out, ranges => do
    let len ← pyLen element
    if len < 3 then do
      let b ← get_circular_border element (100 - r)
      get_group_go r rest (out ++ [b]) ranges
    else do
      let (pos, shapeL, args) ←
        match ← unpackN element 3 with
        | [p, s, a] => Except.ok (p, s, a)
        | _ => .error .valueError
      let shape ← shapeOf shapeL
      let fis ← get_fis pos
      let (objects, ranges2) ← get_objects ranges fis shape args r
      get_group_go r rest (out ++ objects) ranges2

/-- `get_group` from parse.py.  With an empty element list it executes a bare
`return`, i.e. returns `None` (before appending the ring's occupancy record);
otherwise it appends a fresh `GrpRanges(r, [])` and renders each element. -/
noncomputable def get_group (r : ℚ) (elements : List PyLit)
    (ranges : List GrpRanges) :
    Except PyErr (Option (List Svg) × List GrpRanges) :=
  if elements.isEmpty then .ok (none, ranges)
  else do
    let ranges2 := ranges ++ [⟨r, []⟩]
    let (out, ranges3) ← get_group_go r elements [] ranges2
    .ok (some out, ranges3)

/-- The `for r, element in zip(reversed(rs), reversed(elements))` loop of
`get_svg`: `out.extend(group)` raises `TypeError: 'NoneType' object is not
iterable` when `get_group` returned `None`. -/
noncomputable def get_svg_go :
    List (ℚ × PyLit) → List Svg → List GrpRanges → Except PyErr (List Svg)
  | [], out, _ => .ok out
  | (r, element) :: rest, out, ranges => do
    let l ← asList element
    let (group?, ranges2) ← get_group r (l.drop 1) ranges
    match group? with
    | none => .error .typeError
    | some group => get_svg_go rest (out ++ group) ranges2

/-- `get_svg` from parse.py, taking the already-parsed literal
`(dictionary, elements)` (the `ast.literal_eval` collaborator is out of
scope).  Resolve the tree, allocate the radii, then render rings in reverse
declaration order, concatenating the fragments (the model returns the list of
fragments instead of the joined string). -/
noncomputable def get_svg (dictionary : Dict) (elements : List PyLit) :
    Except PyErr (List Svg) := do
  let elements2 ← replace_matched_items elements dictionary
  let rs ← get_rs elements2
  get_svg_go (rs.reverse.zip elements2.reverse) [] []

/-! ## Theorems for the specification claims -/

/-- Reduction helper: binding a success. -/
theorem ok_bind {α β : Type} (a : α) (f : α → Except PyErr β) :
    (Except.ok a : Except PyErr α) >>= f = f a := rfl

/-- Reduction helper: binding a raised exception. -/
theorem error_bind {α β : Type} (e : PyErr) (f : α → Except PyErr β) :
    (Except.error e : Except PyErr α) >>= f = Except.error e := rfl

/-- Reduction helper: mapping over a success. -/
theorem ok_map {α β : Type} (a : α) (f : α → β) :
    (Except.ok a : Except PyErr α).map f = .ok (f a) := rfl

/-- Reduction helper: mapping over a raised exception. -/
theorem error_map {α β : Type} (e : PyErr) (f : α → β) :
    (Except.error e : Except PyErr α).map f = .error e := rfl

/-- If any node along the dispatched spine is of a non-dispatched kind, the
evaluation raises. -/
theorem eval_error_of_forbidden :
    (n : PyAst) → containsForbidden n = true → ∃ e, eval_ n = .error e
  | .num _, h => by simp [containsForbidden] at h
  | .binop o l r, h => by
    have h2 : containsForbidden l = true ∨ containsForbidden r = true := by
      simpa [containsForbidden, Bool.or_eq_true] using h
    cases hf : operators o with
    | error e => exact ⟨e, by simp [eval_, hf, error_bind]⟩
    | ok f =>
      rcases h2 with hl | hr
      · obtain ⟨e, he⟩ := eval_error_of_forbidden l hl
        exact ⟨e, by simp [eval_, hf, he, ok_bind, error_bind]⟩
      · cases ha : eval_ l with
        | error e => exact ⟨e, by simp [eval_, hf, ha, ok_bind, error_bind]⟩
        | ok a =>
          obtain ⟨e, he⟩ := eval_error_of_forbidden r hr
          exact ⟨e, by simp [eval_, hf, ha, he, ok_bind, error_bind]⟩
  | .unaryop o e, h => by
    have h2 : containsForbidden e = true := by
      simpa [containsForbidden] using h
    cases hf : unaryOperators o with
    | error er => exact ⟨er, by simp [eval_, hf, error_bind]⟩
    | ok f =>
      obtain ⟨er, he⟩ := eval_error_of_forbidden e h2
      exact ⟨er, by simp [eval_, hf, he, ok_bind, error_bind]⟩
  | .call _ _, _ => ⟨.typeError, rfl⟩
  | .name _, _ => ⟨.typeError, rfl⟩
  | .attrAccess _ _, _ => ⟨.typeError, rfl⟩
  | .strLit _, _ => ⟨.typeError, rfl⟩

/-- C1: the evaluator dispatches only on numeric-literal, binary-operation and
unary-operation node kinds; any other node kind — a call, a name, attribute
access, a string literal — raises TypeError immediately, and an expression
tree containing such a node anywhere along the evaluated spine always raises
an error instead of falling through to general-purpose evaluation. -/
theorem evaluator_rejects_nonarithmetic_nodes :
    (∀ n : PyAst, forbiddenKind n = true → eval_ n = .error .typeError) ∧
    (∀ n : PyAst, containsForbidden n = true → ∃ e, eval_ n = .error e) := by
  constructor
  · intro n h
    cases n with
    | num q => simp [forbiddenKind] at h
    | binop o l r => simp [forbiddenKind] at h
    | unaryop o e => simp [forbiddenKind] at h
    | call f args => rfl
    | name s => rfl
    | attrAccess v f => rfl
    | strLit s => rfl
  · exact fun n h => eval_error_of_forbidden n h

/-- Witness for C1: a function call raises TypeError, and a binary operation
with a name buried in it raises. -/
theorem evaluator_rejects_nonarithmetic_nodes_witness :
    eval_ (.call (.name "open") [.strLit "x"]) = .error .typeError ∧
    (∃ e, eval_ (.binop .add (.num 1) (.name "x")) = .error e) :=
  ⟨evaluator_rejects_nonarithmetic_nodes.1 _ rfl,
   evaluator_rejects_nonarithmetic_nodes.2 _ (by simp [containsForbidden])⟩

/-- C2 counterexample: `"2 ^ 3"` evaluates to 1 (bitwise xor), not to
`2 ^ 3 = 8`, refuting "the `^` operator denotes power". -/
theorem caret_power_cex :
    eval_expr "2 ^ 3" = .ok 1 ∧ (1 : ℚ) ≠ (2 : ℚ) ^ (3 : ℕ) :=
  ⟨rfl, by norm_num⟩

/-- C2 amended: for all numeric (natural) literals `a` and `b`, the `^`
operator evaluates to the bitwise xor of `a` and `b`, while power is the `**`
operator (`ast.Pow`), which evaluates to `a` raised to `b`; concretely
`"2 ^ 3"` gives 1 and `"2 ** 3"` gives 8. -/
theorem caret_is_xor_power_is_doublestar :
    (∀ a b : ℕ,
      eval_ (.binop .bitxor (.num a) (.num b)) = .ok ((a ^^^ b : ℕ) : ℚ) ∧
      eval_ (.binop .pow (.num a) (.num b)) = .ok ((a : ℚ) ^ b)) ∧
    eval_expr "2 ^ 3" = .ok 1 ∧ eval_expr "2 ** 3" = .ok 8 := by
  refine ⟨fun a b => ⟨?_, ?_⟩, rfl, rfl⟩
  · simp only [eval_, operators, ok_bind, pyXor, Rat.den_natCast,
      Rat.num_natCast, and_self, if_true]
    rw [show intXor (a : ℤ) (b : ℤ) = ((a ^^^ b : ℕ) : ℤ) from rfl]
    simp
  · simp [eval_, operators, ok_bind, pyPow, Rat.den_natCast, Rat.num_natCast]

/-- C3: resolving an expression first replaces every occurrence of each
dictionary key by the string form of its value; if no alphabetic character
remains the result is evaluated arithmetically (`"2*x+1"` with `{"x": 5}`
resolves to 11), if one remains the string is returned unevaluated (`"font"`
resolves to `"font"`), and values that are already numbers pass through
unchanged. -/
theorem resolver_substitutes_then_dispatches :
    (∀ (d : Dict) (q : ℚ), get_value_of_exp (.num q) d = .ok (.num q)) ∧
    (∀ (d : Dict) (s : String), hasAlpha (substitute d s) = true →
      get_value_of_exp (.str s) d = .ok (.str (substitute d s))) ∧
    (∀ (d : Dict) (s : String), hasAlpha (substitute d s) = false →
      get_value_of_exp (.str s) d = (eval_expr (substitute d s)).map PyLit.num) ∧
    get_value_of_exp (.str "2*x+1") [("x", 5)] = .ok (.num 11) ∧
    get_value_of_exp (.str "font") [] = .ok (.str "font") := by
  refine ⟨fun d q => rfl, fun d s h => ?_, fun d s h => ?_, ?_, rfl⟩
  · simp [get_value_of_exp, h]
  · simp [get_value_of_exp, h]
  · rw [show get_value_of_exp (.str "2*x+1") [("x", 5)] =
        .ok (.num ((2 : ℚ) * 5 + 1)) from rfl]
    norm_num

/-- Witness for C3 at the two scenario inputs: `"font"` keeps a letter after
substitution and is returned as a string; `"2*x+1"` becomes fully numeric and
is routed to the evaluator. -/
theorem resolver_substitutes_then_dispatches_witness :
    (hasAlpha (substitute [] "font") = true ∧
      get_value_of_exp (.str "font") [] = .ok (.str (substitute [] "font"))) ∧
    (hasAlpha (substitute [("x", 5)] "2*x+1") = false ∧
      get_value_of_exp (.str "2*x+1") [("x", 5)] =
        (eval_expr (substitute [("x", 5)] "2*x+1")).map PyLit.num) :=
  ⟨⟨rfl, resolver_substitutes_then_dispatches.2.1 [] "font" rfl⟩,
   ⟨rfl, resolver_substitutes_then_dispatches.2.2.1 [("x", 5)] "2*x+1" rfl⟩⟩

/-- Coercing a list of numeric literals back to numbers is the identity. -/
theorem pyMap_asNum_map_num : ∀ l : List ℚ, pyMap asNum (l.map PyLit.num) = .ok l
  | [] => rfl
  | q :: rest => by
    simp [pyMap, asNum, ok_bind, pyMap_asNum_map_num rest]

/-- C4: the Angular Position Expander's three-variant policy.  A positive
integer count N yields exactly the N distinct angles `0, 1/N, …, (N-1)/N`; a
range spec `[N, end]` or `[N, start, end]` (start defaulting to 0) yields
exactly the angles `i/N` with `0 ≤ i < N` and `start ≤ i/N ≤ end`; an
explicit set is returned unchanged. -/
theorem get_fis_three_variant_policy :
    (∀ N : ℕ, 0 < N →
      get_fis (.num (N : ℚ)) =
          .ok ((List.range N).map fun i : ℕ => (i : ℚ) / (N : ℚ)) ∧
      ((List.range N).map fun i : ℕ => (i : ℚ) / (N : ℚ)).length = N ∧
      ((List.range N).map fun i : ℕ => (i : ℚ) / (N : ℚ)).Nodup ∧
      (0 : ℚ) ∈ (List.range N).map fun i : ℕ => (i : ℚ) / (N : ℚ)) ∧
    (∀ (N : ℕ) (st en : ℚ), ∃ L,
      get_fis (.list [.num (N : ℚ), .num st, .num en]) = .ok L ∧
      ∀ q : ℚ, q ∈ L ↔ ∃ i : ℕ, i < N ∧ q = (i : ℚ) / (N : ℚ) ∧ st ≤ q ∧ q ≤ en) ∧
    (∀ (N : ℕ) (en : ℚ),
      get_fis (.list [.num (N : ℚ), .num en]) =
        get_fis (.list [.num (N : ℚ), .num 0, .num en])) ∧
    (∀ l : List ℚ, get_fis (.set (l.map PyLit.num)) = .ok l) := by
  refine ⟨fun N hN => ?_, fun N st en => ?_, fun N en => rfl,
    fun l => pyMap_asNum_map_num l⟩
  · have hden : ((N : ℚ)).den = 1 := Rat.den_natCast N
    have hnum : ((N : ℚ)).num = (N : ℤ) := Rat.num_natCast N
    have hNQ : ((N : ℚ)) ≠ 0 := Nat.cast_ne_zero.2 hN.ne'
    refine ⟨?_, by simp, ?_, ?_⟩
    · simp [get_fis, hden, hnum, Int.toNat_natCast]
    · refine List.Nodup.map ?_ (List.nodup_range N)
      intro a b hab
      have : (a : ℚ) = (b : ℚ) := by
        field_simp at hab
        exact_mod_cast hab
      exact_mod_cast this
    · exact List.mem_map.2 ⟨0, List.mem_range.2 hN, by simp⟩
  · refine ⟨((List.range N).filter
        fun i : ℕ => decide (st ≤ (i : ℚ) / (N : ℚ) ∧ (i : ℚ) / (N : ℚ) ≤ en)).map
          (fun i : ℕ => (i : ℚ) / (N : ℚ)), ?_, fun q => ?_⟩
    · simp [get_fis, get_fis_range, asNum, ok_bind, Rat.den_natCast,
        Rat.num_natCast, Int.toNat_natCast, Int.natCast_nonneg]
    constructor
    · intro hq
      obtain ⟨i, hi, rfl⟩ := List.mem_map.1 hq
      obtain ⟨hiN, hcond⟩ := List.mem_filter.1 hi
      obtain ⟨h1, h2⟩ := of_decide_eq_true hcond
      exact ⟨i, List.mem_range.1 hiN, rfl, h1, h2⟩
    · rintro ⟨i, hiN, rfl, h1, h2⟩
      exact List.mem_map.2 ⟨i, List.mem_filter.2
        ⟨List.mem_range.2 hiN, decide_eq_true ⟨h1, h2⟩⟩, rfl⟩

/-- Witness for C4 at N = 4 (count) and `[12, 1/4, 3/4]` (range): the count
expansion is the four quarter angles including 0; the range contains 4/12 =
1/3 and excludes angle 0. -/
theorem get_fis_three_variant_policy_witness :
    (get_fis (.num ((4 : ℕ) : ℚ)) =
        .ok ((List.range 4).map fun i : ℕ => (i : ℚ) / ((4 : ℕ) : ℚ)) ∧
      (0 : ℚ) ∈ ((List.range 4).map fun i : ℕ => (i : ℚ) / ((4 : ℕ) : ℚ))) ∧
    (∃ L, get_fis (.list [.num ((12 : ℕ) : ℚ), .num (1/4), .num (3/4)]) = .ok L ∧
      (1/3 : ℚ) ∈ L ∧ (0 : ℚ) ∉ L) := by
  have h1 := get_fis_three_variant_policy.1 4 (by norm_num)
  have h2 := get_fis_three_variant_policy.2.1 12 (1/4) (3/4)
  obtain ⟨L, hL, hmem⟩ := h2
  refine ⟨⟨h1.1, h1.2.2.2⟩, ⟨L, hL, ?_, ?_⟩⟩
  · exact (hmem (1/3)).2 ⟨4, by norm_num, by norm_num, by norm_num, by norm_num⟩
  · intro hc
    obtain ⟨i, _, _, hst, _⟩ := (hmem 0).1 hc
    norm_num at hst

/-- C5 counterexample: for the width-1 shape at angle 1/2 the padded interval
is [-0.1, 1.1]; the `start < 0` branch fires and returns `[0.9, 1]` together
with `[0, 1.1]` — and the second sub-interval does NOT lie within [0, 1],
refuting the claim for unrestricted widths. -/
theorem get_ranges_wide_cex :
    get_ranges ((1/2 : ℚ)) 1 = [((9/10 : ℚ), 1), (0, 11/10)] ∧
    ¬ ((11/10 : ℚ) ≤ 1) := by
  constructor
  · norm_num [get_ranges]
  · norm_num

/-- C5 amended: for every angle in [0,1) and every angular width `w` whose
padded footprint `1.2·w` is at most a full turn (`w ≤ 5/6`), the reservation
computes the padded interval `[pos - w/2 - 0.1w, pos + w/2 + 0.1w]`; when that
interval crosses 0 or 1 it is split into two sub-intervals that both lie
within [0,1] and whose union, as a subset of the circle, equals the padded
interval taken modulo 1; otherwise the padded interval is returned as is. -/
theorem get_ranges_wraparound_split :
    ∀ pos w : ℚ, 0 ≤ pos → pos < 1 → w ≤ 5/6 →
      (¬ (pos - w / 2 - w * (1/10) < 0) → ¬ (pos + w / 2 + w * (1/10) > 1) →
        get_ranges pos w =
          [(pos - w / 2 - w * (1/10), pos + w / 2 + w * (1/10))]) ∧
      ((pos - w / 2 - w * (1/10) < 0 ∨ 1 < pos + w / 2 + w * (1/10)) →
        ∃ a b c d : ℚ, get_ranges pos w = [(a, b), (c, d)] ∧
          0 ≤ a ∧ a ≤ b ∧ b ≤ 1 ∧ 0 ≤ c ∧ c ≤ d ∧ d ≤ 1 ∧
          (∀ y : ℚ, 0 ≤ y → y < 1 →
            (((a ≤ y ∧ y ≤ b) ∨ (c ≤ y ∧ y ≤ d)) ↔
              ∃ k : ℤ, pos - w / 2 - w * (1/10) ≤ y + k ∧
                y + k ≤ pos + w / 2 + w * (1/10)))) := by
  intro pos w h0 h1 hw
  have hget : get_ranges pos w =
      if pos - w / 2 - w * (1/10) < 0 then
        [(pos - w / 2 - w * (1/10) + 1, 1), (0, pos + w / 2 + w * (1/10))]
      else if pos + w / 2 + w * (1/10) > 1 then
        [(pos - w / 2 - w * (1/10), 1), (0, pos + w / 2 + w * (1/10) - 1)]
      else [(pos - w / 2 - w * (1/10), pos + w / 2 + w * (1/10))] := rfl
  constructor
  · intro hns hne
    rw [hget, if_neg hns, if_neg hne]
  · intro hcross
    by_cases hs : pos - w / 2 - w * (1/10) < 0
    · -- the interval pokes below 0
      have hw0 : 0 < w := by linarith
      refine ⟨pos - w / 2 - w * (1/10) + 1, 1, 0, pos + w / 2 + w * (1/10),
        by rw [hget, if_pos hs], by linarith, by linarith, le_refl 1,
        le_refl 0, by linarith, by linarith, ?_⟩
      intro y hy0 hy1
      constructor
      · rintro (⟨hya, hyb⟩ | ⟨hyc, hyd⟩)
        · exact ⟨-1, by push_cast; linarith, by push_cast; linarith⟩
        · exact ⟨0, by push_cast; linarith, by push_cast; linarith⟩
      · rintro ⟨k, hk1, hk2⟩
        have hq1 : (k : ℚ) < 1 := by linarith
        have hq2 : (-2 : ℚ) < (k : ℚ) := by linarith
        have hk3 : k = -1 ∨ k = 0 := by
          have l1 : k < 1 := by exact_mod_cast hq1
          have l2 : (-2 : ℤ) < k := by exact_mod_cast hq2
          omega
        rcases hk3 with rfl | rfl
        · push_cast at hk1 hk2
          left
          exact ⟨by linarith, by linarith⟩
        · push_cast at hk1 hk2
          right
          exact ⟨hy0, by linarith⟩
    · -- the interval pokes above 1
      have he : 1 < pos + w / 2 + w * (1/10) := by
        rcases hcross with h | h
        · exact absurd h hs
        · exact h
      have hw0 : 0 < w := by linarith
      refine ⟨pos - w / 2 - w * (1/10), 1, 0, pos + w / 2 + w * (1/10) - 1,
        by rw [hget, if_neg hs, if_pos he], by linarith, by linarith,
        le_refl 1, le_refl 0, by linarith, by linarith, ?_⟩
      intro y hy0 hy1
      constructor
      · rintro (⟨hya, hyb⟩ | ⟨hyc, hyd⟩)
        · exact ⟨0, by push_cast; linarith, by push_cast; linarith⟩
        · exact ⟨1, by push_cast; linarith, by push_cast; linarith⟩
      · rintro ⟨k, hk1, hk2⟩
        have hns : 0 ≤ pos - w / 2 - w * (1/10) := not_lt.1 hs
        have hq1 : (k : ℚ) < 2 := by linarith
        have hq2 : (-1 : ℚ) < (k : ℚ) := by linarith
        have hk3 : k = 0 ∨ k = 1 := by
          have l1 : k < 2 := by exact_mod_cast hq1
          have l2 : (-1 : ℤ) < k := by exact_mod_cast hq2
          omega
        rcases hk3 with rfl | rfl
        · push_cast at hk1 hk2
          left
          exact ⟨by linarith, by linarith⟩
        · push_cast at hk1 hk2
          right
          exact ⟨hy0, by linarith⟩

/-- Witness for C5 at the claim's scenario: width 0.1 at angle 0.02 splits
into the disjoint sub-intervals [0.96, 1] and [0, 0.08]. -/
theorem get_ranges_wraparound_split_witness :
    get_ranges ((1/50 : ℚ)) (1/10) = [((24/25 : ℚ), 1), (0, 2/25)] ∧
    (2/25 : ℚ) < 24/25 ∧
    (∃ a b c d : ℚ, get_ranges ((1/50 : ℚ)) (1/10) = [(a, b), (c, d)] ∧
      0 ≤ a ∧ a ≤ b ∧ b ≤ 1 ∧ 0 ≤ c ∧ c ≤ d ∧ d ≤ 1 ∧
      (∀ y : ℚ, 0 ≤ y → y < 1 →
        (((a ≤ y ∧ y ≤ b) ∨ (c ≤ y ∧ y ≤ d)) ↔
          ∃ k : ℤ, 1/50 - (1/10) / 2 - (1/10) * (1/10) ≤ y + k ∧
            y + k ≤ 1/50 + (1/10) / 2 + (1/10) * (1/10)))) := by
  have h := (get_ranges_wraparound_split (1/50) (1/10) (by norm_num)
    (by norm_num) (by norm_num)).2 (by norm_num)
  exact ⟨by norm_num [get_ranges], by norm_num, h⟩

/-- C6 counterexample: the query [0, 1/2] fully contains the recorded
interval [0, 1/4] (and their interiors overlap, e.g. at 1/8), yet
`rng_intersects` reports `false`, because containment that shares an endpoint
satisfies none of its three strict comparisons. -/
theorem rng_intersects_containment_cex :
    rng_intersects ((0 : ℚ), 1/2) [((0 : ℚ), 1/4)] = false ∧
    (0 : ℚ) ≤ 0 ∧ (1/4 : ℚ) ≤ 1/2 ∧
    (1/8 : ℚ) ∈ Set.Ioo (0 : ℚ) (1/4) ∧ (1/8 : ℚ) ∈ Set.Ioo (0 : ℚ) (1/2) := by
  refine ⟨?_, le_refl 0, by norm_num, ?_, ?_⟩
  · norm_num [rng_intersects]
  · constructor <;> norm_num
  · constructor <;> norm_num

/-- C6 amended: the intersection test returns true exactly when a query
endpoint lies strictly inside some recorded interval or the query strictly
contains some recorded interval (both endpoints strict).  Endpoints merely
touching never count; neither does containment that shares an endpoint (in
particular an exactly coinciding interval). -/
theorem rng_intersects_iff :
    ∀ (s e : ℚ) (filled : List (ℚ × ℚ)),
      rng_intersects (s, e) filled = true ↔
        ∃ p ∈ filled, s ∈ Set.Ioo p.1 p.2 ∨ e ∈ Set.Ioo p.1 p.2 ∨
          (s < p.1 ∧ p.2 < e) := by
  intro s e filled
  simp [rng_intersects, List.any_eq_true, Set.mem_Ioo]

/-- C7 (code bug): for every two_lines element with numeric arguments
(height, width, separation factor), the drawer raises
`NameError: name 'ri' is not defined` — its body reads the unbound
module-level names `ri`/`ro` — so no pair of parallel radial segments is ever
emitted and no angular range is returned. -/
theorem two_lines_raises_nameerror :
    ∀ (r fi height width sep : ℚ),
      get_two_lines ⟨Shape.two_lines, r, fi,
        .list [.num height, .num width, .num sep]⟩ = .error (.nameError "ri") := by
  intro r fi height width sep
  rfl

/-- C9 (code bug): rendering a description with a ring whose element sequence
is empty does NOT succeed: `get_group` executes a bare `return` (`None`) for
the empty list and `get_svg` runs `out.extend(None)`, a TypeError that aborts
the whole render.  By contrast, the same single-ring description with one
border element renders fine. -/
theorem empty_ring_render_crashes :
    get_svg [] [.list [.num 0]] = .error .typeError ∧
    get_svg [] [.list [.num 0, .list [.num 0, .list [.num (3/2)]]]] =
      .ok [Svg.circularBorder (.num (3/2)) 100] := by
  constructor
  · simp [get_svg, replace_matched_items, get_value_of_exp, get_rs, pyMap,
      asList, pyIndex, asNum, get_rs_go, get_svg_go, get_group, ok_bind,
      error_bind, ok_map, error_map]
  · have h1 : replace_matched_items
        [PyLit.list [PyLit.num 0,
          PyLit.list [PyLit.num 0, PyLit.list [PyLit.num (3/2)]]]] [] =
        .ok [PyLit.list [PyLit.num 0,
          PyLit.list [PyLit.num 0, PyLit.list [PyLit.num (3/2)]]]] := by
      simp [replace_matched_items, get_value_of_exp, replace_in_set, pyMap,
        ok_bind, ok_map]
    rw [get_svg, h1]
    norm_num [get_rs, pyMap, asList, pyIndex, asNum, get_rs_go, get_svg_go,
      get_group, get_group_go, get_circular_border, pyLen, pySubscript,
      ok_bind, error_bind, ok_map, error_map]

/-- Extracting `a[0]` from rings built as `[offset, …elements]` yields the
offsets. -/
theorem pyMap_offsets :
    ∀ rings : List (ℚ × List PyLit),
      pyMap (fun a => do let l ← asList a; pyIndex l 0)
        (rings.map fun p => PyLit.list (PyLit.num p.1 :: p.2)) =
      .ok (rings.map fun p => PyLit.num p.1)
  | [] => rfl
  | p :: rest => by
    have h1 : (do
        let l ← asList (PyLit.list (PyLit.num p.1 :: p.2))
        pyIndex l 0) = Except.ok (PyLit.num p.1) := rfl
    simp [pyMap, h1, ok_bind, pyMap_offsets rest]

/-- With positive offsets the cumulative radii decrease strictly below the
running radius. -/
theorem get_rs_go_chain :
    ∀ (offs : List ℚ) (r : ℚ), (∀ o ∈ offs, 0 < o) →
      List.Chain' (· > ·) (r :: get_rs_go r offs)
  | [], r, _ => by simp [get_rs_go]
  | o :: os, r, h => by
    rw [show get_rs_go r (o :: os) = (r - o) :: get_rs_go (r - o) os from rfl,
      List.chain'_cons]
    refine ⟨?_, get_rs_go_chain os (r - o)
      (fun x hx => h x (List.mem_cons_of_mem _ hx))⟩
    have := h o (List.mem_cons_self o os)
    linarith

/-- With nonnegative offsets summing below the starting radius, every
cumulative radius stays positive. -/
theorem get_rs_go_pos :
    ∀ (offs : List ℚ) (r : ℚ), (∀ o ∈ offs, 0 ≤ o) → offs.sum < r →
      ∀ x ∈ get_rs_go r offs, 0 < x
  | [], _, _, _, x, hx => by simp [get_rs_go] at hx
  | o :: os, r, h, hsum, x, hx => by
    rw [show get_rs_go r (o :: os) = (r - o) :: get_rs_go (r - o) os from rfl]
      at hx
    rw [List.sum_cons] at hsum
    have hnneg : ∀ y ∈ os, 0 ≤ y := fun y hy => h y (List.mem_cons_of_mem _ hy)
    rcases List.mem_cons.1 hx with rfl | hx2
    · have hos : 0 ≤ os.sum := List.sum_nonneg hnneg
      linarith
    · exact get_rs_go_pos os (r - o) hnneg (by linarith) x hx2

/-- C8 counterexample: the claim fails for arbitrary descriptions — two rings
of offset 0 give the radii [100, 100], which do not strictly decrease, and a
single ring of offset 150 gives the radius −50, which is not positive. -/
theorem ring_radii_claim_cex :
    get_rs [PyLit.list [PyLit.num 0], PyLit.list [PyLit.num 0]] =
        .ok [100, 100] ∧
    ¬ List.Chain' (· > ·) [(100 : ℚ), 100] ∧
    get_rs [PyLit.list [PyLit.num 150]] = .ok [-50] ∧
    ¬ ((0 : ℚ) < -50) := by
  refine ⟨?_, ?_, ?_, by norm_num⟩
  · norm_num [get_rs, pyMap, asList, pyIndex, asNum, get_rs_go, ok_bind]
  · rw [List.chain'_cons]
    norm_num
  · norm_num [get_rs, pyMap, asList, pyIndex, asNum, get_rs_go, ok_bind]

/-- C8 amended: for every description whose rings carry resolved thickness
offsets that are all positive and sum to less than the outer boundary 100,
the Ring Allocator's radii (100 minus the cumulative offsets, in description
order) strictly decrease moving inward and all remain positive. -/
theorem ring_radii_decreasing_when_offsets_positive :
    ∀ rings : List (ℚ × List PyLit),
      (∀ p ∈ rings, 0 < p.1) → (rings.map Prod.fst).sum < 100 →
      get_rs (rings.map fun p => PyLit.list (PyLit.num p.1 :: p.2)) =
          .ok (get_rs_go 100 (rings.map Prod.fst)) ∧
      List.Chain' (· > ·) (get_rs_go 100 (rings.map Prod.fst)) ∧
      ∀ x ∈ get_rs_go 100 (rings.map Prod.fst), 0 < x := by
  intro rings hpos hsum
  have hoffs : ∀ o ∈ rings.map Prod.fst, 0 < o := by
    intro o ho
    obtain ⟨p, hp, rfl⟩ := List.mem_map.1 ho
    exact hpos p hp
  refine ⟨?_, ?_, ?_⟩
  · have hnum : pyMap asNum (rings.map fun p => PyLit.num p.1) =
        .ok (rings.map Prod.fst) := by
      have h := pyMap_asNum_map_num (rings.map Prod.fst)
      rw [List.map_map] at h
      exact h
    simp only [get_rs, pyMap_offsets rings, ok_bind, hnum]
  · exact (get_rs_go_chain (rings.map Prod.fst) 100 hoffs).tail
  · exact get_rs_go_pos (rings.map Prod.fst) 100
      (fun o ho => (hoffs o ho).le) hsum

/-- Witness for C8 at the two-ring description with offsets 30 and 40: the
radii are 70 and 30, strictly decreasing and positive. -/
theorem ring_radii_decreasing_when_offsets_positive_witness :
    get_rs [PyLit.list [PyLit.num 30], PyLit.list [PyLit.num 40]] =
        .ok (get_rs_go 100 [30, 40]) ∧
    List.Chain' (· > ·) (get_rs_go 100 [30, 40]) ∧
    ∀ x ∈ get_rs_go 100 [30, 40], 0 < x := by
  have h := ring_radii_decreasing_when_offsets_positive [(30, []), (40, [])]
    (by rintro p hp; simp at hp; rcases hp with rfl | rfl <;> norm_num)
    (by norm_num)
  simpa using h

/-- C10: at radius `r > 0` the angular-width computation
`asin(width / r) / (2π)` succeeds with a value in [0, 1/4] exactly when
`0 ≤ width ≤ r`; as soon as the linear width exceeds `r`, `asin` is applied
outside its domain and raises `ValueError: math domain error` — in
particular a circle whose diameter exceeds its ring's radius errors, and a
whole render containing such a circle aborts with that error and no
output. -/
theorem angular_width_asin_domain :
    (∀ w r : ℚ, 0 < r →
      ((∃ v : ℝ, compute_angular_width w (100 - r) = .ok v ∧ 0 ≤ v ∧ v ≤ 1/4) ↔
        (0 ≤ w ∧ w ≤ r)) ∧
      (r < w → compute_angular_width w (100 - r) = .error .valueError) ∧
      (∀ fi : ℚ, r < w →
        get_circle ⟨Shape.circle, r, fi, .list [.num w]⟩ =
          .error .valueError)) ∧
    get_svg [] [.list [.num 0, .list [.num 1, .str "circle", .list [.num 150]]]] =
      .error .valueError := by
  constructor
  · intro w r hr
    have hrr : (100 : ℚ) - (100 - r) = r := by ring
    have hcw : compute_angular_width w (100 - r) =
        if w / r > 1 ∨ w / r < -1 then .error .valueError
        else .ok (Real.arcsin ((w / r : ℚ) : ℝ) / (2 * Real.pi)) := by
      simp only [compute_angular_width, hrr, if_neg (show ¬(r = 0) from hr.ne')]
    have herr : r < w → compute_angular_width w (100 - r) = .error .valueError := by
      intro hrw
      rw [hcw, if_pos (Or.inl ((one_lt_div hr).2 hrw))]
    refine ⟨?_, herr, ?_⟩
    · constructor
      · rintro ⟨v, hok, h0v, hv4⟩
        by_cases hcond : w / r > 1 ∨ w / r < -1
        · rw [hcw, if_pos hcond] at hok
          cases hok
        · rw [hcw, if_neg hcond] at hok
          push_neg at hcond
          have hwr : w ≤ r := (div_le_one hr).1 hcond.1
          have hv : v = Real.arcsin ((w / r : ℚ) : ℝ) / (2 * Real.pi) :=
            (Except.ok.injEq _ _ ▸ hok.symm : _)
          have h2pi : (0 : ℝ) < 2 * Real.pi := by positivity
          have harcsin : 0 ≤ Real.arcsin ((w / r : ℚ) : ℝ) := by
            by_contra hneg
            push_neg at hneg
            have : v < 0 := hv ▸ div_neg_of_neg_of_pos hneg h2pi
            linarith
          have hx : (0 : ℝ) ≤ ((w / r : ℚ) : ℝ) := Real.arcsin_nonneg.1 harcsin
          have hxq : (0 : ℚ) ≤ w / r := by exact_mod_cast hx
          have h0w : 0 ≤ w := by
            have := mul_nonneg hxq hr.le
            rwa [div_mul_cancel₀ w hr.ne'] at this
          exact ⟨h0w, hwr⟩
      · rintro ⟨h0w, hwr⟩
        have hx1 : w / r ≤ 1 := (div_le_one hr).2 hwr
        have hx0 : (0 : ℚ) ≤ w / r := div_nonneg h0w hr.le
        have hcond : ¬(w / r > 1 ∨ w / r < -1) := by
          push_neg
          constructor <;> linarith
        refine ⟨Real.arcsin ((w / r : ℚ) : ℝ) / (2 * Real.pi),
          by rw [hcw, if_neg hcond], ?_, ?_⟩
        · have h2pi : (0 : ℝ) < 2 * Real.pi := by positivity
          have : (0 : ℝ) ≤ ((w / r : ℚ) : ℝ) := by exact_mod_cast hx0
          exact div_nonneg (Real.arcsin_nonneg.2 this) h2pi.le
        · have h2pi : (0 : ℝ) < 2 * Real.pi := by positivity
          have h1 : Real.arcsin ((w / r : ℚ) : ℝ) ≤ Real.pi / 2 :=
            Real.arcsin_le_pi_div_two _
          have h2 : Real.arcsin ((w / r : ℚ) : ℝ) / (2 * Real.pi) ≤
              (Real.pi / 2) / (2 * Real.pi) :=
            div_le_div_of_nonneg_right h1 h2pi.le
          have h3 : (Real.pi / 2) / (2 * Real.pi) = 1/4 := by
            field_simp
            ring
          linarith [h3 ▸ h2]
    · intro fi hrw
      simp [get_circle, pySubscript, pyIndex, asNum, ok_bind, herr hrw,
        error_bind]
  · have h1 : replace_matched_items
        [PyLit.list [PyLit.num 0,
          PyLit.list [PyLit.num 1, PyLit.str "circle",
            PyLit.list [PyLit.num 150]]]] [] =
        .ok [PyLit.list [PyLit.num 0,
          PyLit.list [PyLit.num 1, PyLit.str "circle",
            PyLit.list [PyLit.num 150]]]] := by
      simp [replace_matched_items, get_value_of_exp, pyMap, ok_bind, ok_map,
        show substitute [] "circle" = "circle" from rfl,
        show hasAlpha "circle" = true from rfl]
    rw [get_svg, h1]
    norm_num [get_rs, pyMap, asList, pyIndex, asNum, get_rs_go, get_svg_go,
      get_group, get_group_go, pyLen, unpackN,
      show shapeOf (.str "circle") = .ok Shape.circle from rfl,
      get_fis, get_objects, get_object, get_height, get_max_height,
      range_ocupied, get_svg_el, DRAWERS, get_circle, pySubscript,
      compute_angular_width, update_height, ok_bind, error_bind, ok_map,
      error_map]

/-- Witness for C10 at radius 5: width 3 fits (value in [0, 1/4]); width 7
exceeds the radius and raises the math domain error, also through
`get_circle`. -/
theorem angular_width_asin_domain_witness :
    (∃ v : ℝ, compute_angular_width 3 (100 - 5) = .ok v ∧ 0 ≤ v ∧ v ≤ 1/4) ∧
    compute_angular_width 7 (100 - 5) = .error .valueError ∧
    get_circle ⟨Shape.circle, 5, 0, .list [.num 7]⟩ = .error .valueError :=
  ⟨((angular_width_asin_domain.1 3 5 (by norm_num)).1).2 ⟨by norm_num, by norm_num⟩,
   (angular_width_asin_domain.1 7 5 (by norm_num)).2.1 (by norm_num),
   (angular_width_asin_domain.1 7 5 (by norm_num)).2.2 0 (by norm_num)⟩

end Wfdl
